import Mathlib

/-!
Verification of the file-transfer / statistical-debugging system.

The development shallowly embeds the three core source files:

* `src/client/client.py` — the streaming compress-and-checksum codec
  (`read_and_compress`), the upload request construction and the
  per-transfer record row (`append_sd_row`, `send_file`);
* `src/server/server.py` — the upload handler (`upload_file`) with its
  metadata validation, decompression, corruption oracle and checksum
  verification;
* `src/sd/analyze_sd.py` — the statistical analyzer (`load_sd_data`,
  `compute_baseline`, `define_predicates`, `analyze_predicates`).

Byte strings are modelled as `List Nat`.  The SHA-256 digest and the
gzip/DEFLATE compressor cannot be reimplemented here, so they enter the
embedding as parameters: the digest as a function `List Nat → String`
(hashlib's streaming interface is modelled by accumulating the fed bytes
and finalizing on the accumulated buffer, which is exactly its observable
behaviour), and the compressor as a state machine `Compressor` together
with a `decompress` function; `CodecSpec` packages a compressor/decompressor
pair with zlib's documented round-trip guarantee.  Python floats are
modelled as rationals, and the one random draw the server makes per
request is passed in explicitly (`ServerCfg.draw`), which lets theorems
quantify over every possible draw.
-/

namespace FileTransferSD

/-- Splitting a byte stream into successive chunks of `n` bytes: this models
the client's read loop `chunk = f.read(chunk_size)` (src/client/client.py
lines 110-113), which yields full-size chunks, then a final short chunk, and
stops at the empty read.  For `n = 0`, `f.read(0)` returns the empty byte
string at once, so no chunks are produced. -/
def chunksOf {α : Type*} (n : Nat) (l : List α) : List (List α) :=
  if hn : n = 0 then [] else
  match l with
  | [] => []
  | x :: xs => (x :: xs).take n :: chunksOf n ((x :: xs).drop n)
termination_by l.length
decreasing_by
  simp only [List.length_drop]
  exact Nat.sub_lt (by simp) (Nat.pos_of_ne_zero hn)

/-- Streaming compressor interface, modelling `zlib.compressobj(...)`
(src/client/client.py lines 99-103): an initial state, a per-chunk
`compress` call returning the new state and the bytes emitted so far, and a
final `flush`. -/
structure Compressor (σ : Type) where
  init : σ
  compress : σ → List Nat → σ × List Nat
  flush : σ → List Nat

/-- Loop state of the read-compress-hash loop in `read_and_compress`
(src/client/client.py lines 105-122): the bytes fed to the SHA-256 object so
far (`shaBytes`, modelling `sha.update`), the compressor state, the running
`original_size` and `chunk_count`, and the `compressed_parts` list. -/
structure CodecLoopState (σ : Type) where
  shaBytes : List Nat
  comp : σ
  original_size : Nat
  chunk_count : Nat
  compressed_parts : List (List Nat)

/-- One iteration of the while-loop in `read_and_compress`
(src/client/client.py lines 110-122): count the chunk, add its length,
feed it to the hash, feed it to the compressor, and append the emitted
compressed part if it is non-empty. -/
def codecStep {σ : Type} (C : Compressor σ) (st : CodecLoopState σ)
    (chunk : List Nat) : CodecLoopState σ :=
  let r := C.compress st.comp chunk
  { shaBytes := st.shaBytes ++ chunk
    comp := r.1
    original_size := st.original_size + chunk.length
    chunk_count := st.chunk_count + 1
    compressed_parts :=
      if r.2.isEmpty then st.compressed_parts else st.compressed_parts ++ [r.2] }

/-- Result tuple of `read_and_compress` (src/client/client.py lines
138-145): `(compressed, checksum, original_size, compressed_size,
compression_ratio, chunk_count)`. -/
structure CodecOut where
  compressed : List Nat
  checksum : String
  original_size : Nat
  compressed_size : Nat
  ratio : ℚ
  chunk_count : Nat

/-- The streaming codec `read_and_compress` (src/client/client.py lines
91-145): read the source in `chunk_size`-byte chunks, update the SHA-256
hash and the compressor per chunk, flush the compressor, join the parts,
and compute `compression_ratio = compressed_size / original_size` when
`original_size > 0`, else `1.0`. -/
def read_and_compress {σ : Type} (C : Compressor σ) (sha256hex : List Nat → String)
    (content : List Nat) (chunk_size : Nat) : CodecOut :=
  let fin := (chunksOf chunk_size content).foldl (codecStep C)
    { shaBytes := [], comp := C.init, original_size := 0, chunk_count := 0,
      compressed_parts := [] }
  let flushed := C.flush fin.comp
  let parts :=
    if flushed.isEmpty then fin.compressed_parts else fin.compressed_parts ++ [flushed]
  let compressed := parts.flatten
  let compressed_size := compressed.length
  let compression_ratio : ℚ :=
    if fin.original_size > 0 then (compressed_size : ℚ) / (fin.original_size : ℚ) else 1
  { compressed := compressed
    checksum := sha256hex fin.shaBytes
    original_size := fin.original_size
    compressed_size := compressed_size
    ratio := compression_ratio
    chunk_count := fin.chunk_count }

/-- Reference run of a streaming compressor from state `s` over a chunk
sequence: the final state together with the concatenation of all emitted
parts.  Used to state what the codec loop accumulates. -/
def compressorRunFrom {σ : Type} (C : Compressor σ) (s : σ) :
    List (List Nat) → σ × List Nat
  | [] => (s, [])
  | c :: cs =>
    let r := C.compress s c
    let rest := compressorRunFrom C r.1 cs
    (rest.1, r.2 ++ rest.2)

/-- Full streamed output of a compressor over a chunk sequence: all emitted
parts followed by the final flush. -/
def streamedOutput {σ : Type} (C : Compressor σ) (cs : List (List Nat)) : List Nat :=
  let r := compressorRunFrom C C.init cs
  r.2 ++ C.flush r.1

/-- A compressor paired with a decompressor satisfying the gzip contract
the code relies on: `zlib.decompress(… wbits=16+MAX_WBITS)` applied to the
full streamed output of `zlib.compressobj(… wbits=16+MAX_WBITS)` returns
the original bytes (src/client/client.py lines 99-127 produce the stream,
src/server/server.py line 102 consumes it). -/
structure CodecSpec (σ : Type) where
  comp : Compressor σ
  decompress : List Nat → Option (List Nat)
  roundtrip : ∀ cs : List (List Nat),
    decompress (streamedOutput comp cs) = some cs.flatten

/-! ### Server (src/server/server.py) -/

/-- Bug configuration (src/server/server.py line 45). -/
def BUG_ENABLED : Bool := true

/-- Bug configuration: 30% of large-file uploads get corrupted
(src/server/server.py line 46). -/
def BUG_PROBABILITY : ℚ := 3 / 10

/-- Large-file threshold: 10 MiB (src/server/server.py line 47). -/
def LARGE_FILE_THRESHOLD : Nat := 10 * 1024 * 1024

/-- How much of the end of the file the bug zeroes out
(src/server/server.py line 48). -/
def CORRUPT_TAIL_BYTES : Nat := 1024

/-- Server-side environment of one `/upload` request: the decompressor
(`zlib.decompress` with gzip framing), the SHA-256 hex digest function,
the bug configuration, and the value of the single `random.random()` draw
made for this request (src/server/server.py line 116).  The source fixes
`bugEnabled = BUG_ENABLED` and `bugProbability = BUG_PROBABILITY`; keeping
them as fields lets theorems also cover the deterministic-test
configuration in which the probability is forced to `1.0`. -/
structure ServerCfg where
  decompress : List Nat → Option (List Nat)
  sha256hex : List Nat → String
  bugEnabled : Bool
  bugProbability : ℚ
  draw : ℚ

/-- An `/upload` request: three optional query parameters plus the
compressed body (src/server/server.py lines 64-97). -/
structure UploadRequest where
  filename : Option String
  checksum : Option String
  compression_ratio : Option String
  body : List Nat

/-- Python truthiness of an optional string parameter: `not filename` is
true when the query parameter is absent (`None`) or the empty string
(src/server/server.py line 83). -/
def strFalsy : Option String → Bool
  | none => true
  | some s => s.isEmpty

/-- Fields of the `status="ok"` response dictionary
(src/server/server.py lines 167-177). -/
structure OkResult where
  filename : String
  checksum_ok : Bool
  server_checksum : String
  compression_ratio : Option String
  original_size : Nat
  compressed_size : Nat
  is_large_file : Bool
  bug_triggered : Bool
deriving DecidableEq

/-- Result dictionary returned by the upload handler: either
`status="error"` with a reason, or `status="ok"` with the result fields. -/
inductive UploadResult where
  | error (reason : String)
  | ok (r : OkResult)
deriving DecidableEq

/-- The `status` field of the response dictionary. -/
def UploadResult.status : UploadResult → String
  | .error _ => "error"
  | .ok _ => "ok"

/-- The `checksum_ok` field of the response, absent on error responses. -/
def UploadResult.checksumOk : UploadResult → Option Bool
  | .error _ => none
  | .ok r => some r.checksum_ok

/-- The `server_checksum` field of the response, absent on error
responses. -/
def UploadResult.serverChecksum : UploadResult → Option String
  | .error _ => none
  | .ok r => some r.server_checksum

/-- The corruption oracle inlined in the upload handler
(src/server/server.py lines 112-130): when the bug is enabled, the
decompressed size exceeds `LARGE_FILE_THRESHOLD`, and the uniform draw is
below `bugProbability`, the transfer is flagged corrupted and — only if the
payload has at least `CORRUPT_TAIL_BYTES` bytes — the last
`CORRUPT_TAIL_BYTES` bytes are overwritten with zero bytes (the slice
assignment `corrupted[-CORRUPT_TAIL_BYTES:] = b"\x00" * CORRUPT_TAIL_BYTES`).
Returns the (possibly mutated) payload and the `bug_triggered` flag. -/
def maybe_corrupt (cfg : ServerCfg) (original_data : List Nat) : List Nat × Bool :=
  let original_size := original_data.length
  let is_large_file : Bool := decide (original_size > LARGE_FILE_THRESHOLD)
  let trigger : Bool :=
    cfg.bugEnabled && is_large_file && decide (cfg.draw < cfg.bugProbability)
  if trigger then
    (if original_size ≥ CORRUPT_TAIL_BYTES then
       original_data.take (original_size - CORRUPT_TAIL_BYTES) ++
         List.replicate CORRUPT_TAIL_BYTES 0
     else original_data, true)
  else (original_data, false)

/-- The upload handler `upload_file` (src/server/server.py lines 61-177):
reject requests with a missing (or empty) `filename` or `checksum`
parameter; decompress the body, rejecting on failure; run the corruption
oracle on the decompressed bytes; recompute the SHA-256 digest over the
possibly corrupted bytes and compare it with the client-supplied digest to
set `checksum_ok`; and return the `status="ok"` response.  The response's
`original_size` is the length of the decompressed data (computed before
corruption, which preserves length anyway), `compressed_size` the length
of the raw body. -/
def upload_file (cfg : ServerCfg) (req : UploadRequest) : UploadResult :=
  if strFalsy req.filename || strFalsy req.checksum then
    .error "missing filename or checksum"
  else
    match cfg.decompress req.body with
    | none => .error "decompression_failed"
    | some original_data =>
      let original_size := original_data.length
      let is_large_file : Bool := decide (original_size > LARGE_FILE_THRESHOLD)
      let corrupted := maybe_corrupt cfg original_data
      let server_checksum := cfg.sha256hex corrupted.1
      let checksum_ok : Bool := server_checksum == req.checksum.getD ""
      .ok
        { filename := req.filename.getD ""
          checksum_ok := checksum_ok
          server_checksum := server_checksum
          compression_ratio := req.compression_ratio
          original_size := original_size
          compressed_size := req.body.length
          is_large_file := is_large_file
          bug_triggered := corrupted.2 }

/-! ### Client send path (src/client/client.py) -/

/-- A file in the client's folder: its name (`file_path.name`) and its
byte content. -/
structure ClientFile where
  name : String
  content : List Nat

/-- The request `send_file` issues (src/client/client.py lines 150-189):
query parameters `filename`, `checksum` (the hex digest of the original
uncompressed bytes) and `compression_ratio` (stringified float), with the
compressed bytes as the body. -/
def clientRequest {σ : Type} (C : Compressor σ) (sha256hex : List Nat → String)
    (chunk_size : Nat) (f : ClientFile) : UploadRequest :=
  let out := read_and_compress C sha256hex f.content chunk_size
  { filename := some f.name
    checksum := some out.checksum
    compression_ratio := some (toString out.ratio)
    body := out.compressed }

/-- One row of `sd_data.csv` as parsed back by `load_sd_data`
(src/client/client.py lines 78-88, src/sd/analyze_sd.py lines 17-25):
`int(...)` fields are integers, `float(...)` fields rationals. -/
structure SDRow where
  file_name : String
  original_size : ℤ
  compressed_size : ℤ
  compression_ratio : ℚ
  latency_ms : ℚ
  is_large_file : ℤ
  bug_triggered : ℤ
  checksum_ok : ℤ
  failed : ℤ
deriving DecidableEq

/-- The row `append_sd_row` appends to `sd_data.csv`
(src/client/client.py lines 43-88): booleans are written as `int(...)`,
and `failed = not checksum_ok` is computed at write time. -/
def append_sd_row (file_name : String) (original_size compressed_size : Nat)
    (compression_ratio latency_ms : ℚ)
    (is_large_file bug_triggered checksum_ok : Bool) : SDRow :=
  let failed : Bool := !checksum_ok
  { file_name := file_name
    original_size := (original_size : ℤ)
    compressed_size := (compressed_size : ℤ)
    compression_ratio := compression_ratio
    latency_ms := latency_ms
    is_large_file := if is_large_file then 1 else 0
    bug_triggered := if bug_triggered then 1 else 0
    checksum_ok := if checksum_ok then 1 else 0
    failed := if failed then 1 else 0 }

/-- Client-side extraction `resp_json.get("checksum_ok", True)`
(src/client/client.py line 203): the key is present only on `ok`
responses, so the default `True` is used on `error` responses. -/
def UploadResult.getChecksumOk : UploadResult → Bool
  | .error _ => true
  | .ok r => r.checksum_ok

/-- Client-side extraction `resp_json.get("is_large_file", False)`
(src/client/client.py line 204). -/
def UploadResult.getIsLargeFile : UploadResult → Bool
  | .error _ => false
  | .ok r => r.is_large_file

/-- Client-side extraction `resp_json.get("bug_triggered", False)`
(src/client/client.py line 205). -/
def UploadResult.getBugTriggered : UploadResult → Bool
  | .error _ => false
  | .ok r => r.bug_triggered

/-- The row `send_file` logs for one upload (src/client/client.py lines
198-217): the server returns HTTP 200 for both `ok` and `error` result
dictionaries, so `raise_for_status()` never fires and the row is logged
unconditionally, using `resp_json.get` defaults for absent keys.
`latency` is the client-measured wall-clock time, passed in explicitly. -/
def send_file_row {σ : Type} (C : Compressor σ) (cfg : ServerCfg)
    (chunk_size : Nat) (f : ClientFile) (latency : ℚ) : SDRow :=
  let out := read_and_compress C cfg.sha256hex f.content chunk_size
  let resp := upload_file cfg (clientRequest C cfg.sha256hex chunk_size f)
  append_sd_row f.name out.original_size out.compressed_size out.ratio latency
    resp.getIsLargeFile resp.getBugTriggered resp.getChecksumOk

/-- An upload call reaching the server: either issued by this repository's
client from a file (the only path that appends to `sd_data.csv`), or by an
external caller with an arbitrary request (a direct POST; no client-side
logging exists for it). -/
inductive UploadCall where
  | external (req : UploadRequest)
  | fromClient (f : ClientFile) (latency : ℚ)

/-- The request a call carries. -/
def requestOf {σ : Type} (C : Compressor σ) (cfg : ServerCfg)
    (chunk_size : Nat) : UploadCall → UploadRequest
  | .external req => req
  | .fromClient f _ => clientRequest C cfg.sha256hex chunk_size f

/-- One complete transfer: the server's response together with the row
appended to the persisted store (`none` when no row is appended — external
callers never touch `sd_data.csv`; the client appends exactly one row per
`send_file` call). -/
def transferOutcome {σ : Type} (C : Compressor σ) (cfg : ServerCfg)
    (chunk_size : Nat) : UploadCall → UploadResult × Option SDRow
  | .external req => (upload_file cfg req, none)
  | .fromClient f lat =>
    (upload_file cfg (clientRequest C cfg.sha256hex chunk_size f),
     some (send_file_row C cfg chunk_size f lat))

/-! ### Statistical analyzer (src/sd/analyze_sd.py) -/

/-- Loading `sd_data.csv` (src/sd/analyze_sd.py lines 9-27): when the file
does not exist, `FileNotFoundError` is raised; otherwise every row is
parsed (numeric conversion is folded into the typed `SDRow`
representation). -/
def load_sd_data (csv : Option (List SDRow)) : Except String (List SDRow) :=
  match csv with
  | none => .error "SD data file not found"
  | some rows => .ok rows

/-- Result of `compute_baseline` (src/sd/analyze_sd.py lines 30-44). -/
structure Baseline where
  total_runs : Nat
  total_failed : ℤ
  total_passed : ℤ
  baseline_failure_rate : ℚ
deriving DecidableEq

/-- The baseline statistics (src/sd/analyze_sd.py lines 30-44):
`total_runs = len(rows)`, `total_failed = sum(r["failed"])`,
`total_passed = total_runs - total_failed`, and
`baseline_failure_rate = total_failed / total_runs if total_runs > 0 else 0.0`. -/
def compute_baseline (rows : List SDRow) : Baseline :=
  let total_runs := rows.length
  let total_failed := (rows.map (·.failed)).sum
  { total_runs := total_runs
    total_failed := total_failed
    total_passed := (total_runs : ℤ) - total_failed
    baseline_failure_rate :=
      if total_runs > 0 then (total_failed : ℚ) / (total_runs : ℚ) else 0 }

/-- The fixed predicate set `define_predicates` (src/sd/analyze_sd.py lines
47-80), in the dictionary's insertion order P1..P8; `bool(...)` of an
integer field is `≠ 0`. -/
def define_predicates (row : SDRow) : List (String × Bool) :=
  [("P1_is_large_file", row.is_large_file != 0),
   ("P2_bug_triggered", row.bug_triggered != 0),
   ("P3_checksum_failed", !(row.checksum_ok != 0)),
   ("P4_high_latency", decide (row.latency_ms > 200)),
   ("P5_high_compression_ratio", decide (row.compression_ratio > 0.8)),
   ("P6_very_large_file", decide (row.original_size > 50 * 1024 * 1024)),
   ("P7_small_file", decide (row.original_size < 100 * 1024)),
   ("P8_medium_file",
     decide (100 * 1024 ≤ row.original_size ∧ row.original_size ≤ 10 * 1024 * 1024))]

/-- Names of the predicates that hold for a row — the inner loop
`for name, value in preds.items(): if not value: continue; …`
(src/sd/analyze_sd.py lines 106-115) visits exactly these, in order. -/
def truePreds (row : SDRow) : List String :=
  (define_predicates row).filterMap fun p => if p.2 then some p.1 else none

/-- Per-predicate counters (src/sd/analyze_sd.py lines 94-100). -/
structure PStat where
  failed_P : Nat
  passed_P : Nat
  support : Nat
deriving DecidableEq

/-- One `stats[name]` update (src/sd/analyze_sd.py lines 110-115):
increment `support`, and `failed_P` or `passed_P` according to the row's
`failed` flag. -/
def bumpStat (failed : Bool) (s : PStat) : PStat :=
  { failed_P := if failed then s.failed_P + 1 else s.failed_P
    passed_P := if failed then s.passed_P else s.passed_P + 1
    support := s.support + 1 }

/-- The `defaultdict` keyed by predicate name, as an insertion-ordered
association list: updating an existing key bumps it in place, a fresh key
is inserted at the end with zeroed counters and then bumped. -/
def updateStats (name : String) (failed : Bool) :
    List (String × PStat) → List (String × PStat)
  | [] => [(name, bumpStat failed ⟨0, 0, 0⟩)]
  | (k, v) :: t =>
    if k = name then (k, bumpStat failed v) :: t
    else (k, v) :: updateStats name failed t

/-- Processing one row of the outer loop (src/sd/analyze_sd.py lines
102-115): `failed = bool(row["failed"])`, then every true predicate's
counters are bumped. -/
def recordRow (acc : List (String × PStat)) (row : SDRow) : List (String × PStat) :=
  (truePreds row).foldl (fun a n => updateStats n (row.failed != 0) a) acc

/-- The accumulated per-predicate statistics over all rows. -/
def statsOf (rows : List SDRow) : List (String × PStat) :=
  rows.foldl recordRow []

/-- One entry of the analyzer's result list (src/sd/analyze_sd.py lines
139-146). -/
structure PredicateResult where
  name : String
  failed_P : Nat
  passed_P : Nat
  support : Nat
  failure_P : ℚ
  increase : ℚ
deriving DecidableEq

/-- Scoring one predicate (src/sd/analyze_sd.py lines 119-146):
`failure_P = failed_P / total_failed` when `total_failed > 0` else `0.0`;
`failure_rate_when_P = failed_P / support` when `support > 0` else `0.0`;
`increase = failure_rate_when_P - baseline_failure_rate`. -/
def scoreStat (b : Baseline) (p : String × PStat) : PredicateResult :=
  let failure_P : ℚ :=
    if b.total_failed > 0 then (p.2.failed_P : ℚ) / (b.total_failed : ℚ) else 0
  let failure_rate_when_P : ℚ :=
    if p.2.support > 0 then (p.2.failed_P : ℚ) / (p.2.support : ℚ) else 0
  { name := p.1
    failed_P := p.2.failed_P
    passed_P := p.2.passed_P
    support := p.2.support
    failure_P := failure_P
    increase := failure_rate_when_P - b.baseline_failure_rate }

/-- The sort key `lambda r: (r["increase"], r["failure_P"])`
(src/sd/analyze_sd.py line 149). -/
def sortKey (r : PredicateResult) : ℚ × ℚ := (r.increase, r.failure_P)

/-- Lexicographic (non-strict) order on sort keys — Python's tuple
comparison. -/
def keyLex (x y : ℚ × ℚ) : Prop := x.1 < y.1 ∨ (x.1 = y.1 ∧ x.2 ≤ y.2)

instance (x y : ℚ × ℚ) : Decidable (keyLex x y) := by
  unfold keyLex; exact inferInstance

/-- The comparison `result.sort(key=…, reverse=True)` hands to a stable
sort: `a` may stay before `b` iff `b`'s key is lexicographically at most
`a`'s (descending order, ties keeping insertion order). -/
def descBy (a b : PredicateResult) : Bool := decide (keyLex (sortKey b) (sortKey a))

/-- The analyzer `analyze_predicates` (src/sd/analyze_sd.py lines 83-151):
on an empty record set (`total_runs == 0`) it returns `None` before any
per-predicate computation; otherwise it accumulates the per-predicate
counters, scores each predicate in dictionary order, and stable-sorts
descending by `(increase, failure_P)`. -/
def analyze_predicates (rows : List SDRow) (b : Baseline) :
    Option (List PredicateResult) :=
  if b.total_runs = 0 then none
  else some (((statsOf rows).map (scoreStat b)).mergeSort descBy)

/-- The analyzer entry point `main` up to its printing
(src/sd/analyze_sd.py lines 154-165): load the CSV (propagating the
`FileNotFoundError` when the file is absent), compute the baseline, and
analyze. -/
def run_analyzer (csv : Option (List SDRow)) :
    Except String (Baseline × Option (List PredicateResult)) :=
  match load_sd_data csv with
  | .error e => .error e
  | .ok rows =>
    let b := compute_baseline rows
    .ok (b, analyze_predicates rows b)

/-! ### Concrete instances used to instantiate the parametric theorems -/

/-- The identity compressor: emits every chunk unchanged and flushes
nothing.  It satisfies the same streaming interface as
`zlib.compressobj` and is used to instantiate theorems that hold for any
compressor. -/
def idCompressor : Compressor Unit where
  init := ()
  compress := fun s c => (s, c)
  flush := fun _ => []

/-- The identity codec: the identity compressor paired with the identity
decompressor, which trivially satisfies the gzip round-trip contract. -/
def idCodecSpec : CodecSpec Unit where
  comp := idCompressor
  decompress := some
  roundtrip := fun cs => by
    have h : ∀ (s : Unit) (ds : List (List Nat)),
        compressorRunFrom idCompressor s ds = ((), ds.flatten) := by
      intro s ds
      induction ds generalizing s with
      | nil => rfl
      | cons d ds ih =>
        show ((compressorRunFrom idCompressor s ds).1,
          d ++ (compressorRunFrom idCompressor s ds).2) = ((), (d :: ds).flatten)
        rw [ih s]
        simp
    show some (streamedOutput idCompressor cs) = some cs.flatten
    simp only [streamedOutput, h]
    show some (cs.flatten ++ []) = some cs.flatten
    simp

/-- A server configuration with the identity decompressor, a constant
non-empty digest function, and the source's bug configuration. -/
def cfgId : ServerCfg where
  decompress := some
  sha256hex := fun _ => "d"
  bugEnabled := BUG_ENABLED
  bugProbability := BUG_PROBABILITY
  draw := 0

/-- A server configuration with the corruption probability forced to
`1.0` (the deterministic-test configuration) and a draw of `0`, so the
oracle triggers on every eligible payload. -/
def cfgForce : ServerCfg where
  decompress := some
  sha256hex := fun _ => "d"
  bugEnabled := true
  bugProbability := 1
  draw := 0

/-- A payload one byte above the large-file threshold. -/
def bigPayload : List Nat := List.replicate (LARGE_FILE_THRESHOLD + 1) 0

/-- First record of the spec's synthetic 4-record example: a large failed
transfer. -/
def exRow1 : SDRow :=
  { file_name := "big1", original_size := 20971520, compressed_size := 5000000,
    compression_ratio := 0, latency_ms := 50, is_large_file := 1,
    bug_triggered := 1, checksum_ok := 0, failed := 1 }

/-- Second record of the example: another large failed transfer. -/
def exRow2 : SDRow :=
  { file_name := "big2", original_size := 20971520, compressed_size := 5000000,
    compression_ratio := 0, latency_ms := 50, is_large_file := 1,
    bug_triggered := 1, checksum_ok := 0, failed := 1 }

/-- Third record of the example: a large passed transfer. -/
def exRow3 : SDRow :=
  { file_name := "big3", original_size := 20971520, compressed_size := 5000000,
    compression_ratio := 0, latency_ms := 50, is_large_file := 1,
    bug_triggered := 0, checksum_ok := 1, failed := 0 }

/-- Fourth record of the example: a small passed transfer. -/
def exRow4 : SDRow :=
  { file_name := "small", original_size := 1024, compressed_size := 500,
    compression_ratio := 0, latency_ms := 50, is_large_file := 0,
    bug_triggered := 0, checksum_ok := 1, failed := 0 }

/-- The spec's synthetic 4-record example: 2 large failed, 1 large passed,
1 small passed. -/
def exRows : List SDRow := [exRow1, exRow2, exRow3, exRow4]

/-! ### Lemmas about the streaming codec -/

/-- Concatenating the chunks of a positive chunk size restores the stream. -/
theorem flatten_chunksOf {α : Type*} (n : Nat) (hn : 0 < n) (l : List α) :
    (chunksOf n l).flatten = l := by
  induction l using chunksOf.induct n with
  | case1 x h => omega
  | case2 h => rw [chunksOf]; simp
  | case3 h x xs ih =>
    rw [chunksOf]
    simp only [dif_neg h, List.flatten_cons]
    rw [ih]
    exact List.take_append_drop n (x :: xs)

/-- Compressed parts accumulated by one loop iteration: the conditional
append of a non-empty part concatenates to exactly the emitted bytes. -/
theorem codecStep_parts_flatten {σ : Type} (C : Compressor σ)
    (st : CodecLoopState σ) (c : List Nat) :
    (codecStep C st c).compressed_parts.flatten =
      st.compressed_parts.flatten ++ (C.compress st.comp c).2 := by
  simp only [codecStep]
  by_cases h : (C.compress st.comp c).2.isEmpty
  · simp [h, List.isEmpty_iff.mp h]
  · simp [h, List.flatten_append]

/-- What the read-compress-hash loop accumulates over a chunk sequence,
relative to an arbitrary starting state: the hash sees the concatenated
chunks, sizes and counts add up, and the compressed parts concatenate to
the reference compressor run's output. -/
theorem foldl_codecStep_spec {σ : Type} (C : Compressor σ) (cs : List (List Nat))
    (st : CodecLoopState σ) :
    (cs.foldl (codecStep C) st).shaBytes = st.shaBytes ++ cs.flatten ∧
    (cs.foldl (codecStep C) st).original_size = st.original_size + cs.flatten.length ∧
    (cs.foldl (codecStep C) st).chunk_count = st.chunk_count + cs.length ∧
    (cs.foldl (codecStep C) st).comp = (compressorRunFrom C st.comp cs).1 ∧
    (cs.foldl (codecStep C) st).compressed_parts.flatten =
      st.compressed_parts.flatten ++ (compressorRunFrom C st.comp cs).2 := by
  induction cs generalizing st with
  | nil => simp [compressorRunFrom]
  | cons c cs ih =>
    obtain ⟨h1, h2, h3, h4, h5⟩ := ih (codecStep C st c)
    simp only [List.foldl_cons, List.flatten_cons, List.length_cons]
    refine ⟨?_, ?_, ?_, ?_, ?_⟩
    · rw [h1]; simp [codecStep, List.append_assoc]
    · rw [h2]; simp [codecStep]; omega
    · rw [h3]; simp [codecStep]; omega
    · rw [h4]; simp [codecStep, compressorRunFrom]
    · rw [h5, codecStep_parts_flatten]
      simp [codecStep, compressorRunFrom, List.append_assoc]

/-- Specialization of `foldl_codecStep_spec` to the loop's initial
state. -/
theorem foldl_codecStep_init {σ : Type} (C : Compressor σ) (cs : List (List Nat)) :
    (cs.foldl (codecStep C)
        { shaBytes := [], comp := C.init, original_size := 0, chunk_count := 0,
          compressed_parts := [] }).shaBytes = cs.flatten ∧
    (cs.foldl (codecStep C)
        { shaBytes := [], comp := C.init, original_size := 0, chunk_count := 0,
          compressed_parts := [] }).original_size = cs.flatten.length ∧
    (cs.foldl (codecStep C)
        { shaBytes := [], comp := C.init, original_size := 0, chunk_count := 0,
          compressed_parts := [] }).chunk_count = cs.length ∧
    (cs.foldl (codecStep C)
        { shaBytes := [], comp := C.init, original_size := 0, chunk_count := 0,
          compressed_parts := [] }).comp = (compressorRunFrom C C.init cs).1 ∧
    (cs.foldl (codecStep C)
        { shaBytes := [], comp := C.init, original_size := 0, chunk_count := 0,
          compressed_parts := [] }).compressed_parts.flatten =
      (compressorRunFrom C C.init cs).2 := by
  obtain ⟨h1, h2, h3, h4, h5⟩ := foldl_codecStep_spec C cs
    { shaBytes := [], comp := C.init, original_size := 0, chunk_count := 0,
      compressed_parts := [] }
  exact ⟨by simpa using h1, by simpa using h2, by simpa using h3,
    by simpa using h4, by simpa using h5⟩

/-- The output fields of `read_and_compress` in terms of the chunk
sequence: the compressed output is the full streamed compressor output,
the digest is taken over the concatenated chunks, and size and count are
those of the chunk sequence. -/
theorem read_and_compress_spec {σ : Type} (C : Compressor σ)
    (sha256hex : List Nat → String) (content : List Nat) (n : Nat) :
    (read_and_compress C sha256hex content n).compressed =
      streamedOutput C (chunksOf n content) ∧
    (read_and_compress C sha256hex content n).checksum =
      sha256hex (chunksOf n content).flatten ∧
    (read_and_compress C sha256hex content n).original_size =
      (chunksOf n content).flatten.length ∧
    (read_and_compress C sha256hex content n).chunk_count =
      (chunksOf n content).length := by
  obtain ⟨h1, h2, h3, h4, h5⟩ := foldl_codecStep_init C (chunksOf n content)
  simp only [read_and_compress, streamedOutput]
  refine ⟨?_, ?_, ?_, ?_⟩
  · rw [h4]
    by_cases hf : (C.flush (compressorRunFrom C C.init (chunksOf n content)).1).isEmpty
    · rw [if_pos hf, h5, List.isEmpty_iff.mp hf, List.append_nil]
    · rw [if_neg hf, List.flatten_append, h5]
      simp
  · rw [h1]
  · rw [h2]
  · rw [h3]

/-- With a positive chunk size, the digest is computed over exactly the
original bytes. -/
theorem read_and_compress_checksum {σ : Type} (C : Compressor σ)
    (sha256hex : List Nat → String) (content : List Nat) (n : Nat) (hn : 0 < n) :
    (read_and_compress C sha256hex content n).checksum = sha256hex content := by
  rw [(read_and_compress_spec C sha256hex content n).2.1,
    flatten_chunksOf n hn content]

/-- With a positive chunk size, `original_size` is the length of the
source. -/
theorem read_and_compress_original_size {σ : Type} (C : Compressor σ)
    (sha256hex : List Nat → String) (content : List Nat) (n : Nat) (hn : 0 < n) :
    (read_and_compress C sha256hex content n).original_size = content.length := by
  rw [(read_and_compress_spec C sha256hex content n).2.2.1,
    flatten_chunksOf n hn content]

/-- The identity compressor's reference run emits the concatenated
input. -/
theorem compressorRunFrom_id (s : Unit) (cs : List (List Nat)) :
    compressorRunFrom idCompressor s cs = ((), cs.flatten) := by
  induction cs generalizing s with
  | nil => rfl
  | cons d ds ih =>
    show ((compressorRunFrom idCompressor s ds).1,
      d ++ (compressorRunFrom idCompressor s ds).2) = ((), (d :: ds).flatten)
    rw [ih s]
    simp

/-- The identity compressor's streamed output is the concatenated input. -/
theorem streamedOutput_id (cs : List (List Nat)) :
    streamedOutput idCompressor cs = cs.flatten := by
  simp only [streamedOutput, compressorRunFrom_id]
  show cs.flatten ++ [] = cs.flatten
  simp

/-- Under the identity compressor, `read_and_compress` outputs the source
bytes themselves (for a positive chunk size). -/
theorem read_and_compress_id (sha256hex : List Nat → String) (content : List Nat)
    (n : Nat) (hn : 0 < n) :
    (read_and_compress idCompressor sha256hex content n).compressed = content := by
  rw [(read_and_compress_spec idCompressor sha256hex content n).1,
    streamedOutput_id, flatten_chunksOf n hn]

/-- The `bug_triggered` flag returned by the corruption oracle is exactly
its trigger condition. -/
theorem maybe_corrupt_snd (cfg : ServerCfg) (data : List Nat) :
    (maybe_corrupt cfg data).2 =
      (cfg.bugEnabled && decide (data.length > LARGE_FILE_THRESHOLD) &&
        decide (cfg.draw < cfg.bugProbability)) := by
  simp only [maybe_corrupt]
  cases hb : (cfg.bugEnabled && decide (data.length > LARGE_FILE_THRESHOLD) &&
      decide (cfg.draw < cfg.bugProbability)) with
  | false => simp
  | true => simp

/-! ### Claim theorems: corruption oracle and codec -/

/-- C6: for every payload of at most `LARGE_FILE_THRESHOLD` (10 MiB)
bytes, the corruption oracle never triggers — for every configuration,
hence for every random draw and every probability including `1.0`:
`bug_triggered` is `false` and the payload is returned unchanged. -/
theorem small_payload_never_corrupted (cfg : ServerCfg) (data : List Nat)
    (h : data.length ≤ LARGE_FILE_THRESHOLD) :
    maybe_corrupt cfg data = (data, false) := by
  have hlarge : decide (data.length > LARGE_FILE_THRESHOLD) = false :=
    decide_eq_false (by omega)
  simp only [maybe_corrupt, hlarge, Bool.and_false, Bool.false_and,
    Bool.false_eq_true, if_false]

/-- Witness for C6 at a concrete input: a 3-byte payload with the
corruption probability forced to `1.0` and a draw below it. -/
theorem small_payload_never_corrupted_witness :
    ([1, 2, 3] : List Nat).length ≤ LARGE_FILE_THRESHOLD ∧
    maybe_corrupt cfgForce [1, 2, 3] = ([1, 2, 3], false) :=
  ⟨by decide, small_payload_never_corrupted cfgForce [1, 2, 3] (by decide)⟩

/-- C7: whenever the corruption oracle triggers, then if the payload has
at least `CORRUPT_TAIL_BYTES` (1024) bytes, exactly the last
`CORRUPT_TAIL_BYTES` bytes become zero bytes while the length and all
earlier bytes are unchanged; if the payload is shorter, the bytes are
entirely unchanged although the trigger is still reported. -/
theorem corruption_zeroes_exactly_last_tail_bytes (cfg : ServerCfg)
    (data : List Nat) (h : (maybe_corrupt cfg data).2 = true) :
    (CORRUPT_TAIL_BYTES ≤ data.length →
      (maybe_corrupt cfg data).1.length = data.length ∧
      (maybe_corrupt cfg data).1.take (data.length - CORRUPT_TAIL_BYTES) =
        data.take (data.length - CORRUPT_TAIL_BYTES) ∧
      (maybe_corrupt cfg data).1.drop (data.length - CORRUPT_TAIL_BYTES) =
        List.replicate CORRUPT_TAIL_BYTES 0) ∧
    (data.length < CORRUPT_TAIL_BYTES → (maybe_corrupt cfg data).1 = data) := by
  by_cases htr : (cfg.bugEnabled && decide (data.length > LARGE_FILE_THRESHOLD) &&
      decide (cfg.draw < cfg.bugProbability)) = true
  case neg =>
    exfalso
    simp only [maybe_corrupt] at h
    rw [if_neg htr] at h
    exact Bool.false_ne_true h
  case pos =>
    constructor
    · intro hge
      have hres : maybe_corrupt cfg data =
          (data.take (data.length - CORRUPT_TAIL_BYTES) ++
            List.replicate CORRUPT_TAIL_BYTES 0, true) := by
        simp only [maybe_corrupt]
        rw [if_pos htr, if_pos hge]
      rw [hres]
      have hlen : (data.take (data.length - CORRUPT_TAIL_BYTES)).length =
          data.length - CORRUPT_TAIL_BYTES := by
        rw [List.length_take]
        omega
      refine ⟨?_, ?_, ?_⟩
      · simp only [List.length_append, List.length_replicate, hlen]
        omega
      · exact List.take_left' hlen
      · exact List.drop_left' hlen
    · intro hlt
      simp only [maybe_corrupt]
      rw [if_pos htr, if_neg (by omega)]

/-- Witness for C7 at a concrete input: a payload one byte above the
large-file threshold with the probability forced to `1.0`. -/
theorem corruption_zeroes_exactly_last_tail_bytes_witness :
    (maybe_corrupt cfgForce bigPayload).2 = true ∧
    ((CORRUPT_TAIL_BYTES ≤ bigPayload.length →
      (maybe_corrupt cfgForce bigPayload).1.length = bigPayload.length ∧
      (maybe_corrupt cfgForce bigPayload).1.take
          (bigPayload.length - CORRUPT_TAIL_BYTES) =
        bigPayload.take (bigPayload.length - CORRUPT_TAIL_BYTES) ∧
      (maybe_corrupt cfgForce bigPayload).1.drop
          (bigPayload.length - CORRUPT_TAIL_BYTES) =
        List.replicate CORRUPT_TAIL_BYTES 0) ∧
    (bigPayload.length < CORRUPT_TAIL_BYTES →
      (maybe_corrupt cfgForce bigPayload).1 = bigPayload)) := by
  have htrig : (cfgForce.bugEnabled &&
      decide (bigPayload.length > LARGE_FILE_THRESHOLD) &&
      decide (cfgForce.draw < cfgForce.bugProbability)) = true := by
    simp only [cfgForce, bigPayload, List.length_replicate, Bool.and_eq_true,
      decide_eq_true_eq]
    refine ⟨⟨trivial, by omega⟩, by norm_num⟩
  have htr : (maybe_corrupt cfgForce bigPayload).2 = true := by
    rw [maybe_corrupt_snd, htrig]
  exact ⟨htr, corruption_zeroes_exactly_last_tail_bytes cfgForce bigPayload htr⟩

/-- C9: the compression ratio returned by the codec equals
`compressed_size / original_size` whenever `original_size > 0`, and
equals exactly `1.0` when `original_size = 0`. -/
theorem compression_ratio_formula {σ : Type} (C : Compressor σ)
    (sha256hex : List Nat → String) (content : List Nat) (n : Nat) :
    (0 < (read_and_compress C sha256hex content n).original_size →
      (read_and_compress C sha256hex content n).ratio =
        ((read_and_compress C sha256hex content n).compressed_size : ℚ) /
          ((read_and_compress C sha256hex content n).original_size : ℚ)) ∧
    ((read_and_compress C sha256hex content n).original_size = 0 →
      (read_and_compress C sha256hex content n).ratio = 1) := by
  simp only [read_and_compress]
  constructor
  · intro h
    rw [if_pos h]
  · intro h
    rw [if_neg (by omega)]

/-- Witness for C9 at a concrete input: a 1-byte source under the
identity compressor. -/
theorem compression_ratio_formula_witness :
    0 < (read_and_compress idCompressor (fun _ => "d") [5] 1).original_size ∧
    (read_and_compress idCompressor (fun _ => "d") [5] 1).ratio =
      ((read_and_compress idCompressor (fun _ => "d") [5] 1).compressed_size : ℚ) /
        ((read_and_compress idCompressor (fun _ => "d") [5] 1).original_size : ℚ) := by
  have h : 0 < (read_and_compress idCompressor (fun _ => "d") [5] 1).original_size := by
    rw [read_and_compress_original_size idCompressor (fun _ => "d") [5] 1 (by decide)]
    simp
  exact ⟨h, (compression_ratio_formula idCompressor (fun _ => "d") [5] 1).1 h⟩

/-- C2: for every successfully decompressed upload, `checksum_ok` is set
iff the digest recomputed over the payload bytes after the corruption
step equals the client-supplied digest; the response's `server_checksum`
is that post-corruption digest, so the corruption step happens strictly
before the digest comparison. -/
theorem checksum_ok_iff_corrupted_digest_matches (cfg : ServerCfg)
    (req : UploadRequest) (data : List Nat) (c : String)
    (hcs : req.checksum = some c) (hfn : strFalsy req.filename = false)
    (hcn : strFalsy req.checksum = false)
    (hdec : cfg.decompress req.body = some data) :
    (upload_file cfg req).checksumOk =
      some (cfg.sha256hex (maybe_corrupt cfg data).1 == c) ∧
    (upload_file cfg req).serverChecksum =
      some (cfg.sha256hex (maybe_corrupt cfg data).1) := by
  rw [hcs] at hcn
  simp only [upload_file, hfn, hcs, hcn, Bool.false_or, Bool.false_eq_true, if_false,
    hdec, Option.getD_some, UploadResult.checksumOk, UploadResult.serverChecksum]
  exact ⟨by trivial, by trivial⟩

/-- Witness for C2 at a concrete input: a present filename and checksum
and a 1-byte body under the identity decompressor. -/
theorem checksum_ok_iff_corrupted_digest_matches_witness :
    (⟨some "f", some "d", none, [7]⟩ : UploadRequest).checksum = some "d" ∧
    (upload_file cfgId ⟨some "f", some "d", none, [7]⟩).checksumOk =
      some (cfgId.sha256hex (maybe_corrupt cfgId [7]).1 == "d") :=
  ⟨rfl, (checksum_ok_iff_corrupted_digest_matches cfgId
    ⟨some "f", some "d", none, [7]⟩ [7] "d" rfl (by decide)
    (by decide) rfl).1⟩

/-- C8: for every non-empty byte sequence processed in positive fixed-size
chunks by a codec satisfying the gzip round-trip contract, decompressing
the concatenated compressed output yields exactly the original bytes, and
the incrementally computed digest is the digest of the whole original
buffer. -/
theorem codec_roundtrip_and_digest {σ : Type} (spec : CodecSpec σ)
    (sha256hex : List Nat → String) (content : List Nat) (n : Nat)
    (hn : 0 < n) (hne : content ≠ []) :
    spec.decompress
        ((read_and_compress spec.comp sha256hex content n).compressed) =
      some content ∧
    (read_and_compress spec.comp sha256hex content n).checksum =
      sha256hex content := by
  constructor
  · rw [(read_and_compress_spec spec.comp sha256hex content n).1, spec.roundtrip,
      flatten_chunksOf n hn]
  · exact read_and_compress_checksum spec.comp sha256hex content n hn

/-- Witness for C8 at a concrete input: the two-byte source `[1, 2]` in
3-byte chunks under the identity codec. -/
theorem codec_roundtrip_and_digest_witness :
    0 < 3 ∧ ([1, 2] : List Nat) ≠ [] ∧
    idCodecSpec.decompress
        ((read_and_compress idCodecSpec.comp (fun _ => "d") [1, 2] 3).compressed) =
      some [1, 2] ∧
    (read_and_compress idCodecSpec.comp (fun _ => "d") [1, 2] 3).checksum = "d" := by
  refine ⟨by decide, by decide, ?_, ?_⟩
  · exact (codec_roundtrip_and_digest idCodecSpec (fun _ => "d") [1, 2] 3
      (by decide) (by decide)).1
  · exact (codec_roundtrip_and_digest idCodecSpec (fun _ => "d") [1, 2] 3
      (by decide) (by decide)).2

/-- C1: for every upload call whose request has a missing (or empty)
filename or checksum, or whose body fails to decompress, the transfer
ends with a `status="error"` result and no `TransferRecord` is appended
to the persisted store.  External calls never append to the store (only
the client's `send_file` writes `sd_data.csv`), and the client's own
calls — whose requests always carry the file's name, a non-empty SHA-256
digest, and a body the server can decompress — never satisfy the
premise. -/
theorem error_uploads_append_no_record {σ : Type} (C : Compressor σ)
    (cfg : ServerCfg) (chunk_size : Nat) (call : UploadCall)
    (hname : ∀ f lat, call = .fromClient f lat → f.name ≠ "")
    (hsha : ∀ x, cfg.sha256hex x ≠ "")
    (hrt : ∀ x : List Nat,
      cfg.decompress ((read_and_compress C cfg.sha256hex x chunk_size).compressed) =
        some x)
    (hbad : strFalsy (requestOf C cfg chunk_size call).filename = true ∨
      strFalsy (requestOf C cfg chunk_size call).checksum = true ∨
      cfg.decompress (requestOf C cfg chunk_size call).body = none) :
    (transferOutcome C cfg chunk_size call).1.status = "error" ∧
    (transferOutcome C cfg chunk_size call).2 = none := by
  cases call with
  | external req =>
    refine ⟨?_, rfl⟩
    simp only [requestOf] at hbad
    simp only [transferOutcome]
    by_cases hm : (strFalsy req.filename || strFalsy req.checksum) = true
    · simp [upload_file, hm, UploadResult.status]
    · rcases hbad with h | h | h
      · exact absurd (by simp [h]) hm
      · exact absurd (by simp [h]) hm
      · simp [upload_file, hm, h, UploadResult.status]
  | fromClient f lat =>
    exfalso
    simp only [requestOf, clientRequest] at hbad
    rcases hbad with h | h | h
    · simp only [strFalsy, String.isEmpty_iff] at h
      exact hname f lat rfl h
    · simp only [strFalsy, String.isEmpty_iff,
        (read_and_compress_spec C cfg.sha256hex f.content chunk_size).2.1] at h
      exact hsha _ h
    · rw [hrt f.content] at h
      cases h
/-- Witness for C1 at a concrete input: an external upload call with no
filename parameter, under the identity codec and a constant non-empty
digest. -/
theorem error_uploads_append_no_record_witness :
    strFalsy (UploadRequest.mk none (some "c") none []).filename = true ∧
    (transferOutcome idCompressor cfgId 1
      (.external ⟨none, some "c", none, []⟩)).1.status = "error" ∧
    (transferOutcome idCompressor cfgId 1
      (.external ⟨none, some "c", none, []⟩)).2 = none := by
  have h := error_uploads_append_no_record idCompressor cfgId 1
    (.external ⟨none, some "c", none, []⟩)
    (fun _ _ h => nomatch h)
    (fun x => by
      show ("d" : String) ≠ ""
      decide)
    (fun x => by
      show some ((read_and_compress idCompressor cfgId.sha256hex x 1).compressed) =
        some x
      rw [read_and_compress_id cfgId.sha256hex x 1 (by norm_num)])
    (Or.inl rfl)
  exact ⟨rfl, h.1, h.2⟩

/-! ### Lemmas about the analyzer -/

/-- Entries produced by `updateStats` satisfy the counter invariant
`support = failed_P + passed_P ∧ 1 ≤ support` when the input entries
do. -/
theorem updateStats_inv (name : String) (f : Bool) (l : List (String × PStat))
    (hl : ∀ p ∈ l, p.2.support = p.2.failed_P + p.2.passed_P ∧ 1 ≤ p.2.support) :
    ∀ p ∈ updateStats name f l,
      p.2.support = p.2.failed_P + p.2.passed_P ∧ 1 ≤ p.2.support := by
  induction l with
  | nil =>
    intro p hp
    simp only [updateStats, List.mem_singleton] at hp
    subst hp
    cases f <;> simp [bumpStat]
  | cons hd t ih =>
    intro p hp
    simp only [updateStats] at hp
    by_cases hk : hd.1 = name
    · rw [if_pos hk] at hp
      rcases List.mem_cons.mp hp with h | h
      · obtain ⟨h1, h2⟩ := hl hd (List.mem_cons_self _ _)
        subst h
        cases f <;> simp [bumpStat] <;> omega
      · exact hl p (List.mem_cons_of_mem _ h)
    · rw [if_neg hk] at hp
      rcases List.mem_cons.mp hp with h | h
      · subst h
        exact hl hd (List.mem_cons_self _ _)
      · exact ih (fun q hq => hl q (List.mem_cons_of_mem _ hq)) p h

/-- The inner predicate loop preserves the counter invariant. -/
theorem foldl_updateStats_inv (f : Bool) (names : List String)
    (acc : List (String × PStat))
    (hacc : ∀ p ∈ acc, p.2.support = p.2.failed_P + p.2.passed_P ∧ 1 ≤ p.2.support) :
    ∀ p ∈ names.foldl (fun a n => updateStats n f a) acc,
      p.2.support = p.2.failed_P + p.2.passed_P ∧ 1 ≤ p.2.support := by
  induction names generalizing acc with
  | nil => exact hacc
  | cons n ns ih => exact ih _ (updateStats_inv n f acc hacc)

/-- Every accumulated per-predicate entry satisfies the counter
invariant. -/
theorem statsOf_inv (rows : List SDRow) :
    ∀ p ∈ statsOf rows,
      p.2.support = p.2.failed_P + p.2.passed_P ∧ 1 ≤ p.2.support := by
  have h : ∀ (rs : List SDRow) (acc : List (String × PStat)),
      (∀ p ∈ acc, p.2.support = p.2.failed_P + p.2.passed_P ∧ 1 ≤ p.2.support) →
      ∀ p ∈ rs.foldl recordRow acc,
        p.2.support = p.2.failed_P + p.2.passed_P ∧ 1 ≤ p.2.support := by
    intro rs
    induction rs with
    | nil => exact fun acc hacc => hacc
    | cons r t ih =>
      intro acc hacc
      exact ih _ (foldl_updateStats_inv _ _ acc hacc)
  exact h rows [] (by simp)

/-- A key occurs in `updateStats name f l` iff it is `name` or occurs in
`l`. -/
theorem mem_keys_updateStats (k name : String) (f : Bool)
    (l : List (String × PStat)) :
    k ∈ (updateStats name f l).map Prod.fst ↔ k = name ∨ k ∈ l.map Prod.fst := by
  induction l with
  | nil => simp [updateStats]
  | cons hd t ih =>
    simp only [updateStats]
    by_cases hk : hd.1 = name
    · rw [if_pos hk]
      simp only [List.map_cons, List.mem_cons, hk]
      tauto
    · rw [if_neg hk]
      simp only [List.map_cons, List.mem_cons, ih]
      tauto

/-- A key occurs after the inner predicate loop iff it occurred before or
is one of the processed names. -/
theorem mem_keys_foldl_updateStats (k : String) (f : Bool) (names : List String)
    (acc : List (String × PStat)) :
    k ∈ ((names.foldl (fun a n => updateStats n f a) acc).map Prod.fst) ↔
      k ∈ acc.map Prod.fst ∨ k ∈ names := by
  induction names generalizing acc with
  | nil => simp
  | cons n ns ih =>
    simp only [List.foldl_cons, ih, mem_keys_updateStats, List.mem_cons]
    tauto

/-- A predicate name has an accumulated entry iff some row satisfies the
predicate. -/
theorem mem_keys_statsOf (rows : List SDRow) (k : String) :
    k ∈ (statsOf rows).map Prod.fst ↔ ∃ r ∈ rows, k ∈ truePreds r := by
  have h : ∀ (rs : List SDRow) (acc : List (String × PStat)),
      k ∈ ((rs.foldl recordRow acc).map Prod.fst) ↔
        k ∈ acc.map Prod.fst ∨ ∃ r ∈ rs, k ∈ truePreds r := by
    intro rs
    induction rs with
    | nil => simp
    | cons r t ih =>
      intro acc
      simp only [List.foldl_cons, ih, recordRow, mem_keys_foldl_updateStats,
        List.mem_cons]
      constructor
      · rintro ((h | h) | ⟨r', hr', h⟩)
        · exact Or.inl h
        · exact Or.inr ⟨r, Or.inl rfl, h⟩
        · exact Or.inr ⟨r', Or.inr hr', h⟩
      · rintro (h | ⟨r', hr' | hr', h⟩)
        · exact Or.inl (Or.inl h)
        · exact Or.inl (Or.inr (hr' ▸ h))
        · exact Or.inr ⟨r', hr', h⟩
  simpa using h rows []

/-- With boolean `failed` values, the failed total is between `0` and the
number of rows. -/
theorem total_failed_bounds (rows : List SDRow)
    (hwf : ∀ r ∈ rows, r.failed = 0 ∨ r.failed = 1) :
    0 ≤ (rows.map (·.failed)).sum ∧ (rows.map (·.failed)).sum ≤ (rows.length : ℤ) := by
  induction rows with
  | nil => simp
  | cons r rs ih =>
    obtain ⟨h1, h2⟩ := ih fun q hq => hwf q (List.mem_cons_of_mem _ hq)
    rcases hwf r (List.mem_cons_self _ _) with h | h <;>
      simp only [List.map_cons, List.sum_cons, h, List.length_cons] <;>
      push_cast <;> omega

/-- With boolean `failed` values, the baseline failure rate lies in
`[0, 1]`. -/
theorem baseline_rate_bounds (rows : List SDRow)
    (hwf : ∀ r ∈ rows, r.failed = 0 ∨ r.failed = 1) :
    0 ≤ (compute_baseline rows).baseline_failure_rate ∧
    (compute_baseline rows).baseline_failure_rate ≤ 1 := by
  obtain ⟨h1, h2⟩ := total_failed_bounds rows hwf
  simp only [compute_baseline]
  by_cases h : rows.length > 0
  · rw [if_pos h]
    constructor
    · exact div_nonneg (by exact_mod_cast h1) (by positivity)
    · rw [div_le_one (by exact_mod_cast h)]
      exact_mod_cast h2
  · rw [if_neg h]
    norm_num

/-- The key order is transitive. -/
theorem keyLex_trans {x y z : ℚ × ℚ} (h1 : keyLex x y) (h2 : keyLex y z) :
    keyLex x z := by
  unfold keyLex at *
  rcases h1 with h1 | ⟨e1, le1⟩ <;> rcases h2 with h2 | ⟨e2, le2⟩
  · exact Or.inl (h1.trans h2)
  · exact Or.inl (e2 ▸ h1)
  · exact Or.inl (e1 ▸ h2)
  · exact Or.inr ⟨e1.trans e2, le1.trans le2⟩

/-- The key order is total. -/
theorem keyLex_total (x y : ℚ × ℚ) : keyLex x y ∨ keyLex y x := by
  unfold keyLex
  rcases lt_trichotomy x.1 y.1 with h | h | h
  · exact Or.inl (Or.inl h)
  · rcases le_total x.2 y.2 with h2 | h2
    · exact Or.inl (Or.inr ⟨h, h2⟩)
    · exact Or.inr (Or.inr ⟨h.symm, h2⟩)
  · exact Or.inr (Or.inl h)

/-- The sort comparison is transitive. -/
theorem descBy_trans (a b c : PredicateResult) (h1 : descBy a b = true)
    (h2 : descBy b c = true) : descBy a c = true := by
  simp only [descBy, decide_eq_true_eq] at h1 h2 ⊢
  exact keyLex_trans h2 h1

/-- The sort comparison is total. -/
theorem descBy_total (a b : PredicateResult) : (descBy a b || descBy b a) = true := by
  simp only [descBy, Bool.or_eq_true, decide_eq_true_eq]
  exact (keyLex_total (sortKey b) (sortKey a)).elim Or.inl Or.inr

/-- On a non-empty record set the analyzer returns the sorted scored
list. -/
theorem analyze_some (rows : List SDRow) (b : Baseline) (h : b.total_runs ≠ 0) :
    analyze_predicates rows b =
      some (((statsOf rows).map (scoreStat b)).mergeSort descBy) := by
  simp [analyze_predicates, h]

/-- Membership in the ranked output is membership in the scored list. -/
theorem mem_analyze (rows : List SDRow) (b : Baseline) (e : PredicateResult)
    (h : b.total_runs ≠ 0) :
    e ∈ (analyze_predicates rows b).getD [] ↔
      e ∈ (statsOf rows).map (scoreStat b) := by
  rw [analyze_some rows b h]
  simp [List.mem_mergeSort]

/-- Predicates holding on the example's first record. -/
theorem truePreds_exRow1 :
    truePreds exRow1 =
      ["P1_is_large_file", "P2_bug_triggered", "P3_checksum_failed"] := by
  norm_num [truePreds, define_predicates, exRow1]
  decide

/-- Predicates holding on the example's second record. -/
theorem truePreds_exRow2 :
    truePreds exRow2 =
      ["P1_is_large_file", "P2_bug_triggered", "P3_checksum_failed"] := by
  norm_num [truePreds, define_predicates, exRow2]
  decide

/-- Predicates holding on the example's third record. -/
theorem truePreds_exRow3 : truePreds exRow3 = ["P1_is_large_file"] := by
  norm_num [truePreds, define_predicates, exRow3]
  decide

/-- Predicates holding on the example's fourth record. -/
theorem truePreds_exRow4 : truePreds exRow4 = ["P7_small_file"] := by
  norm_num [truePreds, define_predicates, exRow4]
  decide

/-- Accumulated counters on the example record set. -/
theorem statsOf_exRows :
    statsOf exRows =
      [("P1_is_large_file", ⟨2, 1, 3⟩), ("P2_bug_triggered", ⟨2, 0, 2⟩),
       ("P3_checksum_failed", ⟨2, 0, 2⟩), ("P7_small_file", ⟨0, 1, 1⟩)] := by
  simp only [statsOf, exRows, List.foldl_cons, List.foldl_nil, recordRow,
    truePreds_exRow1, truePreds_exRow2, truePreds_exRow3, truePreds_exRow4]
  decide

/-- Baseline on the example record set: 4 runs, 2 failed, rate `1/2`. -/
theorem baseline_exRows :
    compute_baseline exRows =
      { total_runs := 4, total_failed := 2, total_passed := 2,
        baseline_failure_rate := 1 / 2 } := by
  norm_num [compute_baseline, exRows, exRow1, exRow2, exRow3, exRow4,
    Baseline.mk.injEq]

/-- The P1 entry occurs in the example's ranked output. -/
theorem exP1_mem :
    scoreStat (compute_baseline exRows) ("P1_is_large_file", ⟨2, 1, 3⟩) ∈
      (analyze_predicates exRows (compute_baseline exRows)).getD [] := by
  rw [mem_analyze exRows (compute_baseline exRows) _
    (by rw [baseline_exRows]; decide)]
  exact List.mem_map_of_mem _ (by rw [statsOf_exRows]; simp)

/-- The P1 entry's scored values on the example record set. -/
theorem exP1_val :
    scoreStat (compute_baseline exRows) ("P1_is_large_file", ⟨2, 1, 3⟩) =
      ⟨"P1_is_large_file", 2, 1, 3, 2 / 2, 2 / 3 - 1 / 2⟩ := by
  rw [baseline_exRows]
  norm_num [scoreStat, PredicateResult.mk.injEq]

/-! ### Claim theorems: analyzer -/

/-- C3: the analyzer computes
`baseline_failure_rate = total_failed / total_runs`, and for every ranked
predicate `failure_P = failed_P / total_failed` (`0.0` when no failures
exist) and `increase = (failed_P / support, or 0.0 when support = 0) −
baseline_failure_rate`; on the spec's 4-record example (2 large failed, 1
large passed, 1 small passed) it yields baseline `1/2` and for P1
`support = 3`, `failed_P = 2`, `passed_P = 1`, `failure_P = 2/2`,
`increase = 2/3 − 1/2`. -/
theorem analyzer_scoring_formulas_and_example (rows : List SDRow)
    (hne : 0 < rows.length) :
    (compute_baseline rows).baseline_failure_rate =
      ((compute_baseline rows).total_failed : ℚ) / (rows.length : ℚ) ∧
    (∀ e ∈ (analyze_predicates rows (compute_baseline rows)).getD [],
      e.failure_P = (if 0 < (compute_baseline rows).total_failed then
        (e.failed_P : ℚ) / ((compute_baseline rows).total_failed : ℚ) else 0) ∧
      e.increase =
        (if 0 < e.support then (e.failed_P : ℚ) / (e.support : ℚ) else 0) -
          (compute_baseline rows).baseline_failure_rate) ∧
    (compute_baseline exRows).baseline_failure_rate = 1 / 2 ∧
    (∃ e ∈ (analyze_predicates exRows (compute_baseline exRows)).getD [],
      e = ⟨"P1_is_large_file", 2, 1, 3, 2 / 2, 2 / 3 - 1 / 2⟩) := by
  refine ⟨?_, ?_, ?_, ?_⟩
  · simp only [compute_baseline]
    rw [if_pos hne]
  · intro e he
    have hnz : (compute_baseline rows).total_runs ≠ 0 := by
      simp only [compute_baseline]
      omega
    rw [mem_analyze rows _ e hnz] at he
    obtain ⟨p, hp, rfl⟩ := List.mem_map.mp he
    exact ⟨rfl, rfl⟩
  · rw [baseline_exRows]
  · exact ⟨_, exP1_mem, exP1_val⟩

/-- Witness for C3 at the concrete 4-record example set. -/
theorem analyzer_scoring_formulas_and_example_witness :
    0 < exRows.length ∧
    (compute_baseline exRows).baseline_failure_rate =
      ((compute_baseline exRows).total_failed : ℚ) / (exRows.length : ℚ) :=
  ⟨by decide, (analyzer_scoring_formulas_and_example exRows (by decide)).1⟩

/-- C4: the analyzer's ranked output is sorted descending by
`(increase, failure_P)` lexicographically; it contains exactly the
predicates some record satisfies (equivalently, support ≥ 1 — zero-support
predicates are dropped, not scored as zero); every listed entry has
support ≥ 1; and the output is deterministic: any value the analyzer
returns on the same input is that one ranked list (the embedded analyzer
is a pure function, and ties at equal keys keep the stable insertion
order, so repeated runs agree even for equal `(increase, failure_P)`
pairs). -/
theorem analyzer_ranking_sorted_supported_deterministic (rows : List SDRow)
    (hne : rows ≠ []) :
    List.Pairwise (fun a b => keyLex (sortKey b) (sortKey a))
      ((analyze_predicates rows (compute_baseline rows)).getD []) ∧
    (∀ n : String,
      (∃ e ∈ (analyze_predicates rows (compute_baseline rows)).getD [],
        e.name = n) ↔ ∃ r ∈ rows, n ∈ truePreds r) ∧
    (∀ e ∈ (analyze_predicates rows (compute_baseline rows)).getD [],
      1 ≤ e.support) ∧
    (∀ out2, analyze_predicates rows (compute_baseline rows) = some out2 →
      out2 = (analyze_predicates rows (compute_baseline rows)).getD []) := by
  have hnz : (compute_baseline rows).total_runs ≠ 0 := by
    simpa [compute_baseline] using fun h => hne (List.length_eq_zero.mp h)
  refine ⟨?_, ?_, ?_, ?_⟩
  · rw [analyze_some rows _ hnz, Option.getD_some]
    exact (List.sorted_mergeSort descBy_trans descBy_total _).imp
      (fun h => by simpa [descBy, decide_eq_true_eq] using h)
  · intro n
    constructor
    · rintro ⟨e, he, rfl⟩
      rw [mem_analyze rows _ e hnz] at he
      obtain ⟨p, hp, rfl⟩ := List.mem_map.mp he
      exact (mem_keys_statsOf rows _).mp (List.mem_map_of_mem _ hp)
    · intro hr
      obtain ⟨p, hp, hpn⟩ := List.mem_map.mp ((mem_keys_statsOf rows n).mpr hr)
      exact ⟨scoreStat _ p,
        (mem_analyze rows _ _ hnz).mpr (List.mem_map_of_mem _ hp), hpn⟩
  · intro e he
    rw [mem_analyze rows _ e hnz] at he
    obtain ⟨p, hp, rfl⟩ := List.mem_map.mp he
    exact (statsOf_inv rows p hp).2
  · intro out2 h2
    rw [analyze_some rows _ hnz] at h2 ⊢
    rw [Option.getD_some]
    exact (Option.some.inj h2).symm

/-- Witness for C4 at the concrete 4-record example set. -/
theorem analyzer_ranking_sorted_supported_deterministic_witness :
    exRows ≠ [] ∧
    List.Pairwise (fun a b => keyLex (sortKey b) (sortKey a))
      ((analyze_predicates exRows (compute_baseline exRows)).getD []) :=
  ⟨by decide,
    (analyzer_ranking_sorted_supported_deterministic exRows (by decide)).1⟩

/-- C5 counterexample: in the no-records-available state in which the
data file does not exist (the state before any client run), the analyzer
raises `FileNotFoundError` from `load_sd_data` instead of reporting a
zero baseline without exception. -/
theorem analyzer_missing_file_raises :
    run_analyzer none = Except.error "SD data file not found" := rfl

/-- C5 (amended): for an empty record set parsed from an existing data
file, the analyzer reports the zero baseline (`total_runs = 0`,
`total_failed = 0`, `baseline_failure_rate = 0.0`) and no ranking
(`analyze_predicates` returns `None` before any per-predicate
computation), raising no exception; but when no records are available
because the data file itself does not exist, `load_sd_data` raises
`FileNotFoundError`. -/
theorem analyzer_empty_records_behavior :
    run_analyzer (some []) = Except.ok (⟨0, 0, 0, 0⟩, none) ∧
    run_analyzer none = Except.error "SD data file not found" := ⟨rfl, rfl⟩

/-- C10: every ranked entry satisfies `support = failed_P + passed_P` and
`support ≥ 1`; consequently `failure_rate_when_P = failed_P / support`
lies in `[0, 1]` and, for record sets whose `failed` field is boolean,
`increase` lies in `[−1, 1]`. -/
theorem predicate_stats_invariants (rows : List SDRow)
    (hwf : ∀ r ∈ rows, r.failed = 0 ∨ r.failed = 1) :
    ∀ e ∈ (analyze_predicates rows (compute_baseline rows)).getD [],
      e.support = e.failed_P + e.passed_P ∧ 1 ≤ e.support ∧
      0 ≤ (e.failed_P : ℚ) / (e.support : ℚ) ∧
      (e.failed_P : ℚ) / (e.support : ℚ) ≤ 1 ∧
      -1 ≤ e.increase ∧ e.increase ≤ 1 := by
  intro e he
  by_cases hnz : (compute_baseline rows).total_runs = 0
  · simp [analyze_predicates, hnz] at he
  · rw [mem_analyze rows _ e hnz] at he
    obtain ⟨p, hp, rfl⟩ := List.mem_map.mp he
    obtain ⟨hi1, hi2⟩ := statsOf_inv rows p hp
    obtain ⟨hb0, hb1⟩ := baseline_rate_bounds rows hwf
    have hspos : (0 : ℚ) < (p.2.support : ℚ) := by
      exact_mod_cast Nat.lt_of_lt_of_le Nat.zero_lt_one hi2
    have hfle : (p.2.failed_P : ℚ) / (p.2.support : ℚ) ≤ 1 := by
      rw [div_le_one hspos]
      exact_mod_cast by omega
    have hfge : (0 : ℚ) ≤ (p.2.failed_P : ℚ) / (p.2.support : ℚ) := by positivity
    refine ⟨hi1, hi2, hfge, hfle, ?_, ?_⟩
    · show -1 ≤ (if p.2.support > 0 then (p.2.failed_P : ℚ) / (p.2.support : ℚ)
        else 0) - (compute_baseline rows).baseline_failure_rate
      rw [if_pos (by omega)]
      linarith
    · show (if p.2.support > 0 then (p.2.failed_P : ℚ) / (p.2.support : ℚ)
        else 0) - (compute_baseline rows).baseline_failure_rate ≤ 1
      rw [if_pos (by omega)]
      linarith

/-- Witness for C10 at the concrete 4-record example set and its P1
entry. -/
theorem predicate_stats_invariants_witness :
    (∀ r ∈ exRows, r.failed = 0 ∨ r.failed = 1) ∧
    (scoreStat (compute_baseline exRows)
        ("P1_is_large_file", ⟨2, 1, 3⟩)).support =
      (scoreStat (compute_baseline exRows)
        ("P1_is_large_file", ⟨2, 1, 3⟩)).failed_P +
      (scoreStat (compute_baseline exRows)
        ("P1_is_large_file", ⟨2, 1, 3⟩)).passed_P :=
  ⟨by decide,
    (predicate_stats_invariants exRows (by decide) _ exP1_mem).1⟩

end FileTransferSD
